import Mathlib

/-!
Verification development for the VEX V5 host-mode simulator core:
the hardware state store (HAL), the display bridge flush path, and the
WebSocket-style transport framing and message codec.

Conventions of the embedding:
* C++ `double` arithmetic is modelled by exact rationals (`ℚ`); the physics
  formulas of the HAL are rational expressions.
* `static_cast<int32_t>` of a `double` is truncation toward zero (`truncQ`).
* Fixed-size C arrays are modelled as functions out of `Fin n`.
* Out-parameters / callback dispatch are purified into returned values.
-/

namespace VexHost

/-- Motor gearset selector, from `pros::motor_gearset_e_t`
(`E_MOTOR_GEARSET_36 / _18 / _06 / _INVALID`). -/
inductive Gearset where
  | g36
  | g18
  | g06
  | ginvalid
  deriving DecidableEq, Repr

/-- Motor state, from `MotorState` in `hal.hpp`; field defaults mirror the
in-class initializers (`voltage = 0`, ..., `temperature = 25.0`,
`gearset = E_MOTOR_GEARSET_18`, `reversed = false`, `connected = false`). -/
structure MotorState where
  voltage : ℤ
  velocity : ℤ
  position : ℚ
  actual_velocity : ℚ
  current : ℤ
  temperature : ℚ
  gearset : Gearset
  reversed : Bool
  connected : Bool
  deriving DecidableEq, Repr

/-- The default-constructed `MotorState()`. -/
def motorInit : MotorState :=
  { voltage := 0, velocity := 0, position := 0, actual_velocity := 0,
    current := 0, temperature := 25, gearset := Gearset.g18,
    reversed := false, connected := false }

/-- Controller state, from `ControllerState` in `hal.hpp`. -/
structure ControllerState where
  analog : Fin 4 → ℤ
  digital : Fin 18 → Bool
  connected : Bool
  battery_capacity : ℤ
  battery_level : ℤ
  lcd_lines : Fin 3 → String

/-- The default-constructed `ControllerState()`. -/
def ctrlInit : ControllerState :=
  { analog := fun _ => 0, digital := fun _ => false, connected := false,
    battery_capacity := 100, battery_level := 100, lcd_lines := fun _ => "" }

/-- Battery state, from `BatteryState` in `hal.hpp` (read-only snapshot). -/
structure BatteryState where
  capacity : ℚ
  current : ℤ
  temperature : ℚ
  voltage : ℤ
  deriving DecidableEq, Repr

/-- The default-constructed `BatteryState()` (values as in `hal.hpp`). -/
def batteryInit : BatteryState :=
  { capacity := 100, current := 0, temperature := 25, voltage := 12800 }

/-- Robot operating mode, from `enum class RobotMode` in `hal.hpp`. -/
inductive RobotMode where
  | DISABLED
  | AUTONOMOUS
  | OPCONTROL
  deriving DecidableEq, Repr

/-- The state owned by the `HAL` singleton: 21 motors, 2 controllers,
battery, the 8-line LCD emulator and the robot mode (`hal.hpp`). -/
structure HALState where
  motors : Fin 21 → MotorState
  controllers : Fin 2 → ControllerState
  battery : BatteryState
  lcd_lines : Fin 8 → String
  lcd_buttons : ℕ
  lcd_initialized : Bool
  robot_mode : RobotMode

/-- State after `HAL::init()`: all motors default, controllers default but
`connected = true`, battery default, LCD cleared; the constructor sets
`_robot_mode = RobotMode::DISABLED` before calling `init()`. -/
def halInit : HALState :=
  { motors := fun _ => motorInit,
    controllers := fun _ => { ctrlInit with connected := true },
    battery := batteryInit,
    lcd_lines := fun _ => "",
    lcd_buttons := 0,
    lcd_initialized := false,
    robot_mode := RobotMode.DISABLED }

/-- `std::clamp(v, lo, hi)`: `v < lo ? lo : hi < v ? hi : v`. -/
def clampI (v lo hi : ℤ) : ℤ :=
  if v < lo then lo else if hi < v then hi else v

/-- `static_cast<int32_t>` of a double: truncation toward zero. -/
def truncQ (q : ℚ) : ℤ :=
  if q < 0 then -(⌊-q⌋) else ⌊q⌋

/-- Gearset-dependent maximum velocity from `HAL::update()`: the local
starts at `200.0` (default 18:1) and the `switch` sets 100/200/600 for the
three ratios; `E_MOTOR_GEARSET_INVALID` falls through to the default. -/
def maxVelocity : Gearset → ℚ
  | Gearset.g36 => 100
  | Gearset.g18 => 200
  | Gearset.g06 => 600
  | Gearset.ginvalid => 200

/-- `target_velocity = (motor.voltage / 127.0) * max_velocity` from
`HAL::update()`. -/
def targetVel (m : MotorState) : ℚ :=
  ((m.voltage : ℚ) / 127) * maxVelocity m.gearset

/-- One physics step for a single motor, from the loop body of
`HAL::update()` in `hal.cpp`: skip when not connected; otherwise apply the
first-order filter with `alpha = 0.1`, integrate position assuming a 10 ms
tick, and derive current and temperature. -/
def updateMotor (m : MotorState) : MotorState :=
  if m.connected = false then m
  else
    let maxv := maxVelocity m.gearset
    let target := ((m.voltage : ℚ) / 127) * maxv
    let act := m.actual_velocity * (1 - 1/10) + target * (1/10)
    let pos := m.position + act * (10 / 60000) * 360
    let cur := truncQ (|act / maxv| * 2000)
    let temp := 25 + ((cur.natAbs : ℚ) / 2500) * 30
    { m with actual_velocity := act, position := pos, current := cur,
             temperature := temp }

/-- `HAL::update()`: run the physics step over every motor (the optional
state-changed callback performs no state mutation and is not modelled). -/
def halUpdate (s : HALState) : HALState :=
  { s with motors := fun i => updateMotor (s.motors i) }

/-- `HAL::set_motor(port, voltage)`: reject ports outside 1..21, else store
the voltage clamped to [-127, 127]. -/
def set_motor (s : HALState) (port : ℕ) (v : ℤ) : HALState :=
  if h : port < 1 ∨ 21 < port then s
  else
    let i : Fin 21 := ⟨port - 1, by omega⟩
    let m := { s.motors i with voltage := clampI v (-127) 127 }
    { s with motors := Function.update s.motors i m }

/-- `HAL::set_motor_velocity`. -/
def set_motor_velocity (s : HALState) (port : ℕ) (v : ℤ) : HALState :=
  if h : port < 1 ∨ 21 < port then s
  else
    let i : Fin 21 := ⟨port - 1, by omega⟩
    let m := { s.motors i with velocity := v }
    { s with motors := Function.update s.motors i m }

/-- `HAL::set_motor_position`. -/
def set_motor_position (s : HALState) (port : ℕ) (p : ℚ) : HALState :=
  if h : port < 1 ∨ 21 < port then s
  else
    let i : Fin 21 := ⟨port - 1, by omega⟩
    let m := { s.motors i with position := p }
    { s with motors := Function.update s.motors i m }

/-- `HAL::set_motor_gearset`. -/
def set_motor_gearset (s : HALState) (port : ℕ) (g : Gearset) : HALState :=
  if h : port < 1 ∨ 21 < port then s
  else
    let i : Fin 21 := ⟨port - 1, by omega⟩
    let m := { s.motors i with gearset := g }
    { s with motors := Function.update s.motors i m }

/-- `HAL::set_motor_reversed`. -/
def set_motor_reversed (s : HALState) (port : ℕ) (b : Bool) : HALState :=
  if h : port < 1 ∨ 21 < port then s
  else
    let i : Fin 21 := ⟨port - 1, by omega⟩
    let m := { s.motors i with reversed := b }
    { s with motors := Function.update s.motors i m }

/-- `HAL::set_motor_connected`. -/
def set_motor_connected (s : HALState) (port : ℕ) (b : Bool) : HALState :=
  if h : port < 1 ∨ 21 < port then s
  else
    let i : Fin 21 := ⟨port - 1, by omega⟩
    let m := { s.motors i with connected := b }
    { s with motors := Function.update s.motors i m }

/-- `HAL::get_motor_voltage` (0 for out-of-range ports). -/
def get_motor_voltage (s : HALState) (port : ℕ) : ℤ :=
  if h : port < 1 ∨ 21 < port then 0 else (s.motors ⟨port - 1, by omega⟩).voltage

/-- `HAL::get_motor_velocity`. -/
def get_motor_velocity (s : HALState) (port : ℕ) : ℤ :=
  if h : port < 1 ∨ 21 < port then 0 else (s.motors ⟨port - 1, by omega⟩).velocity

/-- `HAL::get_motor_position`. -/
def get_motor_position (s : HALState) (port : ℕ) : ℚ :=
  if h : port < 1 ∨ 21 < port then 0 else (s.motors ⟨port - 1, by omega⟩).position

/-- `HAL::get_motor_actual_velocity`. -/
def get_motor_actual_velocity (s : HALState) (port : ℕ) : ℚ :=
  if h : port < 1 ∨ 21 < port then 0
  else (s.motors ⟨port - 1, by omega⟩).actual_velocity

/-- `HAL::get_motor_current`. -/
def get_motor_current (s : HALState) (port : ℕ) : ℤ :=
  if h : port < 1 ∨ 21 < port then 0 else (s.motors ⟨port - 1, by omega⟩).current

/-- `HAL::get_motor_temperature`. -/
def get_motor_temperature (s : HALState) (port : ℕ) : ℚ :=
  if h : port < 1 ∨ 21 < port then 0
  else (s.motors ⟨port - 1, by omega⟩).temperature

/-- `HAL::get_motor_gearset` (the `E_MOTOR_GEARSET_INVALID` sentinel for
out-of-range ports). -/
def get_motor_gearset (s : HALState) (port : ℕ) : Gearset :=
  if h : port < 1 ∨ 21 < port then Gearset.ginvalid
  else (s.motors ⟨port - 1, by omega⟩).gearset

/-- `HAL::get_motor_reversed`. -/
def get_motor_reversed (s : HALState) (port : ℕ) : Bool :=
  if h : port < 1 ∨ 21 < port then false
  else (s.motors ⟨port - 1, by omega⟩).reversed

/-- `HAL::is_motor_connected`. -/
def is_motor_connected (s : HALState) (port : ℕ) : Bool :=
  if h : port < 1 ∨ 21 < port then false
  else (s.motors ⟨port - 1, by omega⟩).connected

/-- `HAL::set_controller_analog` (guard `id > 1 || channel > 3`; the value
is clamped to [-127, 127]). -/
def set_controller_analog (s : HALState) (id ch : ℕ) (v : ℤ) : HALState :=
  if h : 1 < id ∨ 3 < ch then s
  else
    let i : Fin 2 := ⟨id, by omega⟩
    let c : Fin 4 := ⟨ch, by omega⟩
    let ctl := { s.controllers i with
                 analog := Function.update (s.controllers i).analog c (clampI v (-127) 127) }
    { s with controllers := Function.update s.controllers i ctl }

/-- `HAL::set_controller_digital` (guard `id > 1 || button >= 18`). -/
def set_controller_digital (s : HALState) (id btn : ℕ) (v : Bool) : HALState :=
  if h : 1 < id ∨ 18 ≤ btn then s
  else
    let i : Fin 2 := ⟨id, by omega⟩
    let b : Fin 18 := ⟨btn, by omega⟩
    let ctl := { s.controllers i with
                 digital := Function.update (s.controllers i).digital b v }
    { s with controllers := Function.update s.controllers i ctl }

/-- `HAL::set_controller_connected`. -/
def set_controller_connected (s : HALState) (id : ℕ) (b : Bool) : HALState :=
  if h : 1 < id then s
  else
    let i : Fin 2 := ⟨id, by omega⟩
    let ctl := { s.controllers i with connected := b }
    { s with controllers := Function.update s.controllers i ctl }

/-- `HAL::get_controller_analog`. -/
def get_controller_analog (s : HALState) (id ch : ℕ) : ℤ :=
  if h : 1 < id ∨ 3 < ch then 0
  else (s.controllers ⟨id, by omega⟩).analog ⟨ch, by omega⟩

/-- `HAL::get_controller_digital`. -/
def get_controller_digital (s : HALState) (id btn : ℕ) : Bool :=
  if h : 1 < id ∨ 18 ≤ btn then false
  else (s.controllers ⟨id, by omega⟩).digital ⟨btn, by omega⟩

/-- `HAL::is_controller_connected`. -/
def is_controller_connected (s : HALState) (id : ℕ) : Bool :=
  if h : 1 < id then false else (s.controllers ⟨id, by omega⟩).connected

/-- `HAL::get_controller_battery_capacity`. -/
def get_controller_battery_capacity (s : HALState) (id : ℕ) : ℤ :=
  if h : 1 < id then 0 else (s.controllers ⟨id, by omega⟩).battery_capacity

/-- `HAL::get_controller_battery_level`. -/
def get_controller_battery_level (s : HALState) (id : ℕ) : ℤ :=
  if h : 1 < id then 0 else (s.controllers ⟨id, by omega⟩).battery_level

/-- `HAL::set_robot_mode` (unconditional overwrite). -/
def set_robot_mode (s : HALState) (m : RobotMode) : HALState :=
  { s with robot_mode := m }

/-- `HAL::lcd_set_text` (guard `line < 0 || line > 7`; the line index is an
`int16_t`, so it may be negative). -/
def lcd_set_text (s : HALState) (line : ℤ) (text : String) : HALState :=
  if h : line < 0 ∨ 7 < line then s
  else { s with lcd_lines := Function.update s.lcd_lines ⟨line.toNat, by omega⟩ text,
                lcd_initialized := true }

/-- `HAL::lcd_get_text` (empty string for out-of-range lines). -/
def lcd_get_text (s : HALState) (line : ℤ) : String :=
  if h : line < 0 ∨ 7 < line then "" else s.lcd_lines ⟨line.toNat, by omega⟩

/-- `HAL::lcd_clear_line`. -/
def lcd_clear_line (s : HALState) (line : ℤ) : HALState :=
  if h : line < 0 ∨ 7 < line then s
  else { s with lcd_lines := Function.update s.lcd_lines ⟨line.toNat, by omega⟩ "" }

end VexHost

namespace VexHost

/-! ### Display bridge (`display.cpp` / `display.hpp`) -/

/-- Canvas width, `Display::WIDTH = 480`. -/
def WIDTH : ℤ := 480

/-- Canvas height, `Display::HEIGHT = 272`. -/
def HEIGHT : ℤ := 272

/-- The framebuffer, `uint16_t _framebuffer[480*272]`, modelled as a total
function on coordinates; only coordinates inside the canvas are ever
written (the guarded write below). -/
abbrev FB := ℤ → ℤ → ℕ

/-- An LVGL damage rectangle (`lv_area_t`), inclusive corners. -/
structure LvArea where
  x1 : ℤ
  y1 : ℤ
  x2 : ℤ
  y2 : ℤ
  deriving DecidableEq, Repr

/-- Width of the damage rectangle in pixels (`x2 - x1 + 1`, zero when
degenerate). -/
def areaW (a : LvArea) : ℕ := (a.x2 - a.x1 + 1).toNat

/-- Height of the damage rectangle in pixels. -/
def areaH (a : LvArea) : ℕ := (a.y2 - a.y1 + 1).toNat

/-- X coordinate of the k-th covered cell in the row-major sweep of
`disp_flush_cb` (`for y = y1..y2: for x = x1..x2`). -/
def cellX (a : LvArea) (k : ℕ) : ℤ := a.x1 + (k % areaW a : ℕ)

/-- Y coordinate of the k-th covered cell in the row-major sweep. -/
def cellY (a : LvArea) (k : ℕ) : ℤ := a.y1 + (k / areaW a : ℕ)

/-- One framebuffer store, guarded exactly as in `disp_flush_cb`:
`if (x >= 0 && x < WIDTH && y >= 0 && y < HEIGHT)`. -/
def writeCell (fb : FB) (x y : ℤ) (c : ℕ) : FB :=
  if 0 ≤ x ∧ x < WIDTH ∧ 0 ≤ y ∧ y < HEIGHT then
    fun a b => if a = x ∧ b = y then c else fb a b
  else fb

/-- The copy loop of `Display::disp_flush_cb`: the source pointer `color_p`
advances once per covered cell (in or out of bounds alike), so the k-th
covered cell reads `colors[k]`; only in-bounds cells are stored. -/
def flushFB (fb : FB) (a : LvArea) (colors : List ℕ) : FB :=
  (List.range (areaH a * areaW a)).foldl
    (fun f k => writeCell f (cellX a k) (cellY a k) (colors.getD k 0)) fb

/-- `ScreenUpdate` from `ipc.hpp`: rectangle corners plus RGB565 pixel
payload (each element a 16-bit packed color). -/
structure ScreenUpdate where
  x1 : ℤ
  y1 : ℤ
  x2 : ℤ
  y2 : ℤ
  pixels : List ℕ
  deriving DecidableEq, Repr

/-- The second loop of `disp_flush_cb`: re-walk the covered cells and push
the framebuffer value of every in-bounds one onto `update.pixels`. -/
def collectPixels (fb : FB) (a : LvArea) : List ℕ :=
  (List.range (areaH a * areaW a)).filterMap fun k =>
    if 0 ≤ cellX a k ∧ cellX a k < WIDTH ∧ 0 ≤ cellY a k ∧ cellY a k < HEIGHT then
      some (fb (cellX a k) (cellY a k))
    else none

/-- `Display::disp_flush_cb` purified: write the rectangle into the
framebuffer, then build the `ScreenUpdate` record handed to
`IPCClient::send_screen_update` (raw `area` corners, pixels collected from
the freshly written framebuffer). -/
def disp_flush_cb (fb : FB) (a : LvArea) (colors : List ℕ) : FB × ScreenUpdate :=
  let fbNew := flushFB fb a colors
  (fbNew,
   { x1 := a.x1, y1 := a.y1, x2 := a.x2, y2 := a.y2,
     pixels := collectPixels fbNew a })

/-- The ScreenDamageRecord invariant as stated in the spec (section 3): the
rectangle lies within the fixed 480 by 272 canvas and the pixel payload has
exactly width times height elements, row-major, one per covered pixel. -/
def ScreenDamageInv (u : ScreenUpdate) : Prop :=
  0 ≤ u.x1 ∧ u.x1 ≤ u.x2 ∧ u.x2 < 480 ∧
  0 ≤ u.y1 ∧ u.y1 ≤ u.y2 ∧ u.y2 < 272 ∧
  u.pixels.length = (u.x2 - u.x1 + 1).toNat * (u.y2 - u.y1 + 1).toNat

instance (u : ScreenUpdate) : Decidable (ScreenDamageInv u) := by
  unfold ScreenDamageInv; infer_instance

/-! ### Transport framing (`IPCClient::send_message` in `ipc.cpp`) -/

/-- The length bytes of the single-frame envelope, chosen by payload size:
one byte for sizes up to 125, `126` plus a 16-bit big-endian length up to
65535, else `127` plus a 64-bit big-endian length. -/
def lenBytes (n : ℕ) : List ℕ :=
  if n ≤ 125 then [n]
  else if n ≤ 65535 then [126, (n >>> 8) % 256, n % 256]
  else [127, (n >>> 56) % 256, (n >>> 48) % 256, (n >>> 40) % 256,
        (n >>> 32) % 256, (n >>> 24) % 256, (n >>> 16) % 256,
        (n >>> 8) % 256, n % 256]

/-- `IPCClient::send_message`: the byte `0x81` (text frame, FIN), the length
bytes, then the payload unmodified. -/
def sendFrame (payload : List ℕ) : List ℕ :=
  129 :: (lenBytes payload.length ++ payload)

/-! ### Text message codec (`ipc.cpp`) -/

/-- The opening-brace character (ASCII 123). -/
def braceL : Char := Char.ofNat 123

/-- The closing-brace character (ASCII 125). -/
def braceR : Char := Char.ofNat 125

/-- Whether `key` is an initial segment of `s` (character-wise). -/
def leads : List Char → List Char → Bool
  | [], _ => true
  | _ :: _, [] => false
  | k :: ks, c :: cs => k == c && leads ks cs

/-- Index of the first occurrence of `key` in `s`, as `std::string::find`
computes it. -/
def findSub (key : List Char) : List Char → Option ℕ
  | [] => if leads key [] = true then some 0 else none
  | c :: cs =>
      if leads key (c :: cs) = true then some 0
      else (findSub key cs).map (· + 1)

/-- `find(key) != npos`. -/
def hasSub (key s : List Char) : Bool := (findSub key s).isSome

/-- Decimal digit character for a digit value (only values below ten are
ever produced by the division chain below). -/
def digitToChar : ℕ → Char
  | 0 => '0' | 1 => '1' | 2 => '2' | 3 => '3' | 4 => '4'
  | 5 => '5' | 6 => '6' | 7 => '7' | 8 => '8' | _ => '9'

/-- Decimal digits of `n`, most significant first, by repeated division;
fuel-based structural recursion so that terms evaluate inside the kernel.
`natDecCore n n` is exact because `n < 10 ^ n` for positive `n`. -/
def natDecCore : ℕ → ℕ → List Char
  | 0, _ => []
  | fuel + 1, n =>
      if n = 0 then []
      else natDecCore fuel (n / 10) ++ [digitToChar (n % 10)]

/-- Decimal text of a natural number, as `operator<<` prints an unsigned
integral value. -/
def natDec (n : ℕ) : List Char :=
  if n = 0 then ['0'] else natDecCore n n

/-- Decimal text of an integer, as `operator<<` prints a signed integral
value (and a `double` whose value is integral with fewer than seven
significant digits, the only doubles the round-trip claim covers). -/
def intDec (i : ℤ) : List Char :=
  if i < 0 then '-' :: natDec i.natAbs else natDec i.toNat

/-- ASCII decimal digit test. -/
def isDig (c : Char) : Bool := 48 ≤ c.toNat && c.toNat ≤ 57

/-- Digit character or minus sign (the characters `operator<<` emits for an
integral value). -/
def numChar (c : Char) : Bool := c == '-' || isDig c

/-- Value of a big-endian digit-character list. -/
def digitsToNat (cs : List Char) : ℕ :=
  cs.foldl (fun a c => a * 10 + (c.toNat - 48)) 0

/-- `std::stoi` applied to the tail of a message: an optional minus sign
then a nonempty digit run (the messages this system builds never put
whitespace or a plus sign there; `stoi` throws on no digits, modelled as
`none`). -/
def parseCInt (s : List Char) : Option ℤ :=
  if s.head? = some '-' then
    let ds := (s.drop 1).takeWhile isDig
    if ds.isEmpty then none else some (-(digitsToNat ds : ℤ))
  else
    let ds := s.takeWhile isDig
    if ds.isEmpty then none else some ((digitsToNat ds : ℤ))

/-- Locate `key` and read the integer just past it, the field-probe step
used throughout `parse_message` (`find(key)` then `stoi(substr(pos + len))`). -/
def probeIntAt (key s : List Char) : Option ℤ :=
  (findSub key s).bind fun i => parseCInt (s.drop (i + key.length))

/-- The literal `"port":`. -/
def keyPort : List Char := ['\"', 'p', 'o', 'r', 't', '\"', ':']

/-- The literal `"voltage":`. -/
def keyVoltage : List Char := ['\"', 'v', 'o', 'l', 't', 'a', 'g', 'e', '\"', ':']

/-- The literal `"velocity":`. -/
def keyVelocity : List Char := ['\"', 'v', 'e', 'l', 'o', 'c', 'i', 't', 'y', '\"', ':']

/-- The literal `"position":`. -/
def keyPosition : List Char := ['\"', 'p', 'o', 's', 'i', 't', 'i', 'o', 'n', '\"', ':']

/-- The leading text of a motor telemetry record (an opening brace then
`"type":"motor",`). -/
def motorHead : List Char :=
  [braceL, '\"', 't', 'y', 'p', 'e', '\"', ':', '\"', 'm', 'o', 't', 'o', 'r', '\"', ',']

/-- `IPCClient::send_motor_telemetry`: the concatenated record
`{"type":"motor","port":P,"voltage":V,"velocity":X,"position":Y}` (braces
elided here in favor of `braceL`/`braceR`); `port` is a `uint8_t` printed
via `static_cast<int>`, the doubles are taken at integral values (see
`intDec`). -/
def motorMsg (port : ℕ) (v vel pos : ℤ) : List Char :=
  motorHead ++ keyPort ++ natDec port ++
  [','] ++ keyVoltage ++ intDec v ++
  [','] ++ keyVelocity ++ intDec vel ++
  [','] ++ keyPosition ++ intDec pos ++ [braceR]

/-- Inbound messages `parse_message` can recognize and dispatch. -/
inductive InMsg where
  | touch (x y : ℤ) (pressed : Bool)
  | controller
  | mode (value : List Char)
  | selectAuto (category : List Char) (index : ℤ)
  deriving DecidableEq, Repr

/-- The literal `"type":"touch"`. -/
def keyTouchType : List Char :=
  ['\"', 't', 'y', 'p', 'e', '\"', ':', '\"', 't', 'o', 'u', 'c', 'h', '\"']

/-- The literal `"type":"controller"`. -/
def keyCtrlType : List Char :=
  ['\"', 't', 'y', 'p', 'e', '\"', ':', '\"', 'c', 'o', 'n', 't', 'r', 'o',
   'l', 'l', 'e', 'r', '\"']

/-- The literal `"type":"mode"`. -/
def keyModeType : List Char :=
  ['\"', 't', 'y', 'p', 'e', '\"', ':', '\"', 'm', 'o', 'd', 'e', '\"']

/-- The literal `"type":"select_auto"`. -/
def keySelType : List Char :=
  ['\"', 't', 'y', 'p', 'e', '\"', ':', '\"', 's', 'e', 'l', 'e', 'c', 't',
   '_', 'a', 'u', 't', 'o', '\"']

/-- The literal `"x":`. -/
def keyX : List Char := ['\"', 'x', '\"', ':']

/-- The literal `"y":`. -/
def keyY : List Char := ['\"', 'y', '\"', ':']

/-- The literal `"pressed":`. -/
def keyPressed : List Char :=
  ['\"', 'p', 'r', 'e', 's', 's', 'e', 'd', '\"', ':']

/-- The literal `"value":"`. -/
def keyValueQ : List Char :=
  ['\"', 'v', 'a', 'l', 'u', 'e', '\"', ':', '\"']

/-- The literal `"category":"`. -/
def keyCategory : List Char :=
  ['\"', 'c', 'a', 't', 'e', 'g', 'o', 'r', 'y', '\"', ':', '\"']

/-- The literal `"index":`. -/
def keyIndex : List Char := ['\"', 'i', 'n', 'd', 'e', 'x', '\"', ':']

/-- The `"pressed":` probe of the touch branch:
`json.substr(ppos + 10, 4) == "true"`. -/
def pressedProbe (s : List Char) : Bool :=
  match findSub keyPressed s with
  | some i => (s.drop (i + 10)).take 4 == ['t', 'r', 'u', 'e']
  | none => false

/-- `IPCClient::parse_message`, purified into the event it dispatches: the
four type probes in source order; the touch branch reads `x`, `y`,
`pressed` by field probes (a missing probe leaves the C++ field
uninitialized, modelled as the 0/false default); the controller branch
parses nothing; the mode branch extracts the quoted value; the
select_auto branch extracts category and index. A message matching no
probe is ignored (`none`). -/
def parse_message (s : List Char) : Option InMsg :=
  if hasSub keyTouchType s then
    some (InMsg.touch ((probeIntAt keyX s).getD 0) ((probeIntAt keyY s).getD 0)
      (pressedProbe s))
  else if hasSub keyCtrlType s then
    some InMsg.controller
  else if hasSub keyModeType s then
    match findSub keyValueQ s with
    | some i => some (InMsg.mode ((s.drop (i + 9)).takeWhile (fun c => ¬(c = '\"'))))
    | none => none
  else if hasSub keySelType s then
    match findSub keyCategory s, findSub keyIndex s with
    | some ci, some ii =>
        some (InMsg.selectAuto ((s.drop (ci + 12)).takeWhile (fun c => ¬(c = '\"')))
          ((parseCInt (s.drop (ii + 8))).getD 0))
    | _, _ => none
  else none

/-- Modelled from the spec: the repository ships no C++ decoder for outbound
`motor` telemetry records (`parse_message` recognizes only touch,
controller, mode and select_auto), so the spec's round-trip sentence
("decoding ... through the same field-probe logic") is modelled here with
the same probe style `parse_message` uses: locate each literal key
substring and read the number just past it with the `std::stoi`-style
reader. -/
def decodeMotor (s : List Char) : Option (ℤ × ℤ × ℤ × ℤ) :=
  match probeIntAt keyPort s, probeIntAt keyVoltage s,
        probeIntAt keyVelocity s, probeIntAt keyPosition s with
  | some p, some v, some vel, some pos => some (p, v, vel, pos)
  | _, _, _, _ => none

end VexHost

namespace VexHost

/-! ### Concrete test vectors from the spec scenarios -/

/-- A motor that has been marked connected and commanded full voltage
(the premise of the spec's 50-tick scenario). -/
def motor127 : MotorState := { motorInit with connected := true, voltage := 127 }

/-- The store of the spec's scenario: from the initial state, connect motor
1, command voltage 127, then run 50 physics ticks. -/
def scenario50 : HALState :=
  halUpdate^[50] (set_motor (set_motor_connected halInit 1 true) 1 127)

/-! ### Lemmas about the hardware state store -/

theorem updateMotor_of_not_connected (m : MotorState) (h : m.connected = false) :
    updateMotor m = m := by
  simp [updateMotor, h]

theorem updateMotor_connected (m : MotorState) :
    (updateMotor m).connected = m.connected := by
  by_cases h : m.connected = false <;> simp [updateMotor, h]

theorem updateMotor_voltage (m : MotorState) :
    (updateMotor m).voltage = m.voltage := by
  by_cases h : m.connected = false <;> simp [updateMotor, h]

theorem updateMotor_gearset (m : MotorState) :
    (updateMotor m).gearset = m.gearset := by
  by_cases h : m.connected = false <;> simp [updateMotor, h]

theorem updateMotor_act (m : MotorState) (hc : m.connected = true) :
    (updateMotor m).actual_velocity
      = m.actual_velocity * (1 - 1/10) + targetVel m * (1/10) := by
  simp [updateMotor, hc, targetVel]

theorem updateMotor_pos (m : MotorState) (hc : m.connected = true) :
    (updateMotor m).position
      = m.position + (updateMotor m).actual_velocity * (10 / 60000) * 360 := by
  simp [updateMotor, hc]

theorem updateMotor_cur (m : MotorState) (hc : m.connected = true) :
    (updateMotor m).current
      = truncQ (|(updateMotor m).actual_velocity / maxVelocity m.gearset| * 2000) := by
  simp [updateMotor, hc]

theorem updateMotor_temp (m : MotorState) (hc : m.connected = true) :
    (updateMotor m).temperature
      = 25 + (((updateMotor m).current.natAbs : ℚ) / 2500) * 30 := by
  simp [updateMotor, hc]

/-- Closed form of the first-order filter over `n` ticks: connectivity,
voltage and gearset are invariant, and the distance of `actual_velocity`
to the target contracts by exactly 9/10 per tick. -/
theorem updateMotor_iterate (m : MotorState) (hc : m.connected = true) (n : ℕ) :
    (updateMotor^[n] m).connected = true ∧
    (updateMotor^[n] m).voltage = m.voltage ∧
    (updateMotor^[n] m).gearset = m.gearset ∧
    (updateMotor^[n] m).actual_velocity
      = targetVel m + (9/10 : ℚ)^n * (m.actual_velocity - targetVel m) := by
  induction n with
  | zero => simpa using hc
  | succ n ih =>
    obtain ⟨h1, h2, h3, h4⟩ := ih
    rw [Function.iterate_succ_apply']
    have hT : targetVel (updateMotor^[n] m) = targetVel m := by
      unfold targetVel; rw [h2, h3]
    refine ⟨?_, ?_, ?_, ?_⟩
    · rw [updateMotor_connected]; exact h1
    · rw [updateMotor_voltage]; exact h2
    · rw [updateMotor_gearset]; exact h3
    · rw [updateMotor_act _ h1, hT, h4]; ring

theorem halUpdate_iterate_motors (s : HALState) (n : ℕ) (i : Fin 21) :
    (halUpdate^[n] s).motors i = updateMotor^[n] (s.motors i) := by
  induction n with
  | zero => rfl
  | succ n ih =>
    rw [Function.iterate_succ_apply', Function.iterate_succ_apply', ← ih]
    rfl

/-! ### C2: set_motor clamps in range and is a no-op out of range -/

/-- C2. For every port in 1..21 and voltage in [-200, 200], `set_motor`
stores `clamp(v, -127, 127)` as the motor's commanded voltage; for every
port outside 1..21 it changes no motor state at all. -/
theorem set_motor_clamp_spec (s : HALState) (port : ℕ) (v : ℤ) :
    ((1 ≤ port ∧ port ≤ 21) → -200 ≤ v → v ≤ 200 →
      get_motor_voltage (set_motor s port v) port = clampI v (-127) 127)
  ∧ (¬(1 ≤ port ∧ port ≤ 21) → set_motor s port v = s) := by
  constructor
  · intro h _ _
    have hno : ¬(port = 0 ∨ 21 < port) := by omega
    simp [set_motor, get_motor_voltage, hno, Function.update]
  · intro h
    have hyes : port = 0 ∨ 21 < port := by omega
    simp [set_motor, hyes]

/-- Witness for C2: port 5 with an over-range voltage stores 127; port 0
leaves the state untouched. -/
theorem set_motor_clamp_witness :
    get_motor_voltage (set_motor halInit 5 200) 5 = clampI 200 (-127) 127
    ∧ set_motor halInit 0 200 = halInit :=
  ⟨(set_motor_clamp_spec halInit 5 200).1 (by omega) (by norm_num) (by norm_num),
   (set_motor_clamp_spec halInit 0 200).2 (by omega)⟩

/-! ### C6: out-of-range addressing is a silent no-op with defaults -/

/-- C6. For every out-of-range address (motor port outside 1..21,
controller id outside 0..1, LCD line outside 0..7), every getter returns
the default/zero value (0, 0, false, empty string, or the invalid-gearset
sentinel), and every setter leaves the whole store state unchanged; all
these operations are total functions, so none can raise an exception. -/
theorem out_of_range_accessors_noop (s : HALState) (port : ℕ)
    (hp : ¬(1 ≤ port ∧ port ≤ 21)) (id : ℕ) (hid : 1 < id) (line : ℤ)
    (hl : ¬(0 ≤ line ∧ line ≤ 7)) (v : ℤ) (p : ℚ) (g : Gearset) (b : Bool)
    (ch btn : ℕ) (txt : String) :
    set_motor s port v = s ∧ set_motor_velocity s port v = s ∧
    set_motor_position s port p = s ∧ set_motor_gearset s port g = s ∧
    set_motor_reversed s port b = s ∧ set_motor_connected s port b = s ∧
    get_motor_voltage s port = 0 ∧ get_motor_velocity s port = 0 ∧
    get_motor_position s port = 0 ∧ get_motor_actual_velocity s port = 0 ∧
    get_motor_current s port = 0 ∧ get_motor_temperature s port = 0 ∧
    get_motor_gearset s port = Gearset.ginvalid ∧
    get_motor_reversed s port = false ∧ is_motor_connected s port = false ∧
    set_controller_analog s id ch v = s ∧
    set_controller_digital s id btn b = s ∧
    set_controller_connected s id b = s ∧
    get_controller_analog s id ch = 0 ∧
    get_controller_digital s id btn = false ∧
    is_controller_connected s id = false ∧
    get_controller_battery_capacity s id = 0 ∧
    get_controller_battery_level s id = 0 ∧
    lcd_set_text s line txt = s ∧ lcd_get_text s line = "" ∧
    lcd_clear_line s line = s := by
  have hp2 : port = 0 ∨ 21 < port := by omega
  have hl2 : line < 0 ∨ 7 < line := by omega
  and_intros <;>
    simp [set_motor, set_motor_velocity, set_motor_position, set_motor_gearset,
      set_motor_reversed, set_motor_connected, get_motor_voltage,
      get_motor_velocity, get_motor_position, get_motor_actual_velocity,
      get_motor_current, get_motor_temperature, get_motor_gearset,
      get_motor_reversed, is_motor_connected, set_controller_analog,
      set_controller_digital, set_controller_connected, get_controller_analog,
      get_controller_digital, is_controller_connected,
      get_controller_battery_capacity, get_controller_battery_level,
      lcd_set_text, lcd_get_text, lcd_clear_line, hp2, hl2, hid]

/-- Witness for C6: port 22, controller id 2, line 8 on the initial state. -/
theorem out_of_range_accessors_witness :
    set_motor halInit 22 5 = halInit ∧ set_motor_velocity halInit 22 5 = halInit ∧
    set_motor_position halInit 22 3 = halInit ∧
    set_motor_gearset halInit 22 Gearset.g06 = halInit ∧
    set_motor_reversed halInit 22 true = halInit ∧
    set_motor_connected halInit 22 true = halInit ∧
    get_motor_voltage halInit 22 = 0 ∧ get_motor_velocity halInit 22 = 0 ∧
    get_motor_position halInit 22 = 0 ∧ get_motor_actual_velocity halInit 22 = 0 ∧
    get_motor_current halInit 22 = 0 ∧ get_motor_temperature halInit 22 = 0 ∧
    get_motor_gearset halInit 22 = Gearset.ginvalid ∧
    get_motor_reversed halInit 22 = false ∧ is_motor_connected halInit 22 = false ∧
    set_controller_analog halInit 2 0 9 = halInit ∧
    set_controller_digital halInit 2 0 true = halInit ∧
    set_controller_connected halInit 2 true = halInit ∧
    get_controller_analog halInit 2 0 = 0 ∧
    get_controller_digital halInit 2 0 = false ∧
    is_controller_connected halInit 2 = false ∧
    get_controller_battery_capacity halInit 2 = 0 ∧
    get_controller_battery_level halInit 2 = 0 ∧
    lcd_set_text halInit 8 "hi" = halInit ∧ lcd_get_text halInit 8 = "" ∧
    lcd_clear_line halInit 8 = halInit :=
  out_of_range_accessors_noop halInit 22 (by omega) 2 (by omega) 8 (by omega)
    5 3 Gearset.g06 true 0 0 "hi"

/-! ### C10: disconnected motors are inert -/

/-- C10. A freshly initialized motor has `connected = false`; `update()`
leaves any non-connected motor entirely unchanged over any number of
ticks; and commanding a voltage on a port never marked connected produces
no telemetry change (velocity, position, actual velocity, current,
temperature) across any number of ticks. -/
theorem disconnected_motor_inert (m : MotorState) (hm : m.connected = false)
    (n : ℕ) (s : HALState) (port : ℕ) (v : ℤ)
    (hs : is_motor_connected s port = false) :
    motorInit.connected = false ∧
    updateMotor^[n] m = m ∧
    get_motor_velocity (halUpdate^[n] (set_motor s port v)) port
      = get_motor_velocity s port ∧
    get_motor_position (halUpdate^[n] (set_motor s port v)) port
      = get_motor_position s port ∧
    get_motor_actual_velocity (halUpdate^[n] (set_motor s port v)) port
      = get_motor_actual_velocity s port ∧
    get_motor_current (halUpdate^[n] (set_motor s port v)) port
      = get_motor_current s port ∧
    get_motor_temperature (halUpdate^[n] (set_motor s port v)) port
      = get_motor_temperature s port := by
  refine ⟨rfl, Function.iterate_fixed (updateMotor_of_not_connected m hm) n, ?_⟩
  by_cases hr : port = 0 ∨ 21 < port
  · simp [set_motor, get_motor_velocity, get_motor_position,
      get_motor_actual_velocity, get_motor_current, get_motor_temperature, hr]
  · have hb : 0 < port ∧ port ≤ 21 := by omega
    have hconn : (s.motors ⟨port - 1, by omega⟩).connected = false := by
      simpa [is_motor_connected, hr] using hs
    have hconn2 :
        ({ s.motors ⟨port - 1, by omega⟩ with
           voltage := clampI v (-127) 127 } : MotorState).connected = false := hconn
    have hfix :
        (halUpdate^[n] (set_motor s port v)).motors ⟨port - 1, by omega⟩
          = { s.motors ⟨port - 1, by omega⟩ with voltage := clampI v (-127) 127 } := by
      rw [halUpdate_iterate_motors]
      have hmot :
          (set_motor s port v).motors ⟨port - 1, by omega⟩
            = { s.motors ⟨port - 1, by omega⟩ with voltage := clampI v (-127) 127 } := by
        simp [set_motor, hr, Function.update]
      rw [hmot]
      exact Function.iterate_fixed (updateMotor_of_not_connected _ hconn2) n
    refine ⟨?_, ?_, ?_, ?_, ?_⟩ <;>
      simp [get_motor_velocity, get_motor_position, get_motor_actual_velocity,
        get_motor_current, get_motor_temperature, hr, hfix]

/-- Witness for C10: a disconnected default motor at port 3, driven at
voltage 100 for 7 ticks, shows no telemetry change. -/
theorem disconnected_motor_inert_witness :
    updateMotor^[7] motorInit = motorInit ∧
    get_motor_position (halUpdate^[7] (set_motor halInit 3 100)) 3
      = get_motor_position halInit 3 ∧
    get_motor_actual_velocity (halUpdate^[7] (set_motor halInit 3 100)) 3
      = get_motor_actual_velocity halInit 3 ∧
    get_motor_current (halUpdate^[7] (set_motor halInit 3 100)) 3
      = get_motor_current halInit 3 ∧
    get_motor_temperature (halUpdate^[7] (set_motor halInit 3 100)) 3
      = get_motor_temperature halInit 3 := by
  obtain ⟨-, h2, -, h4, h5, h6, h7⟩ :=
    disconnected_motor_inert motorInit rfl 7 halInit 3 100 (by decide)
  exact ⟨h2, h4, h5, h6, h7⟩

end VexHost

namespace VexHost

/-! ### C1: the physics tick and the 50-tick scenario -/

theorem scenario50_motor :
    scenario50.motors ⟨0, by omega⟩ = updateMotor^[50] motor127 := by
  rw [scenario50, halUpdate_iterate_motors]
  congr 1

set_option maxRecDepth 10000 in
/-- C1. For every connected motor, one `update()` tick sets
`actual_velocity` to `old * (1 - 0.1) + (voltage/127 * max_velocity) * 0.1`
(max velocity 100/200/600 by gearset), then adds
`actual_velocity * (10/60000) * 360` to the position, sets the current to
`|actual_velocity / max_velocity| * 2000` truncated to an integer and the
temperature to `25 + |current|/2500 * 30`; and the scenario `set_motor(1,
127)` with gearset 18:1 on a connected motor followed by 50 ticks yields
`actual_velocity = 200 * (1 - 0.9^50)`, current approximately 2000 mA and
temperature approximately 49 degrees. -/
theorem hal_update_physics (m : MotorState) (hc : m.connected = true) :
    (updateMotor m).actual_velocity
      = m.actual_velocity * (1 - 1/10)
        + (((m.voltage : ℚ) / 127) * maxVelocity m.gearset) * (1/10)
  ∧ (updateMotor m).position
      = m.position + (updateMotor m).actual_velocity * (10 / 60000) * 360
  ∧ (updateMotor m).current
      = truncQ (|(updateMotor m).actual_velocity / maxVelocity m.gearset| * 2000)
  ∧ (updateMotor m).temperature
      = 25 + (((updateMotor m).current.natAbs : ℚ) / 2500) * 30
  ∧ get_motor_actual_velocity scenario50 1 = 200 * (1 - (9/10 : ℚ)^50)
  ∧ 1980 ≤ get_motor_current scenario50 1
  ∧ get_motor_current scenario50 1 ≤ 2000
  ∧ |get_motor_temperature scenario50 1 - 49| ≤ 3/10 := by
  have hT : targetVel motor127 = 200 := by
    norm_num [targetVel, motor127, motorInit, maxVelocity]
  have hq0 : (0:ℚ) ≤ (9/10 : ℚ)^50 := by positivity
  have hq1 : ((9:ℚ)/10)^50 ≤ 1/100 := by norm_num
  -- the velocity after 50 ticks
  have hact : (updateMotor^[50] motor127).actual_velocity
      = 200 * (1 - (9/10 : ℚ)^50) := by
    have h := (updateMotor_iterate motor127 rfl 50).2.2.2
    rw [h, hT]
    have h0 : motor127.actual_velocity = 0 := rfl
    rw [h0]; ring
  -- tick 50 in terms of tick 49
  obtain ⟨h49c, h49v, h49g, -⟩ := updateMotor_iterate motor127 rfl 49
  have hsplit : updateMotor^[50] motor127 = updateMotor (updateMotor^[49] motor127) :=
    Function.iterate_succ_apply' updateMotor 49 motor127
  have hmaxv : maxVelocity (updateMotor^[49] motor127).gearset = 200 := by
    rw [h49g]; rfl
  -- current after 50 ticks
  have hcur : (updateMotor^[50] motor127).current
      = ⌊2000 * (1 - (9/10 : ℚ)^50)⌋ := by
    rw [hsplit, updateMotor_cur _ h49c, ← hsplit, hmaxv, hact]
    have habs : |200 * (1 - (9/10 : ℚ)^50) / 200| = 1 - (9/10 : ℚ)^50 := by
      rw [abs_of_nonneg (by nlinarith)]
      ring
    rw [habs]
    have hpos : ¬((1 - (9/10 : ℚ)^50) * 2000 < 0) := by nlinarith
    unfold truncQ
    rw [if_neg hpos]
    ring_nf
  have hcurlow : (1980 : ℤ) ≤ (updateMotor^[50] motor127).current := by
    rw [hcur]
    refine Int.le_floor.mpr ?_
    push_cast
    nlinarith
  have hcurhigh : (updateMotor^[50] motor127).current ≤ 2000 := by
    rw [hcur]
    have h1 : (2000 * (1 - (9/10 : ℚ)^50)) ≤ ((2000 : ℤ) : ℚ) := by
      push_cast; nlinarith
    calc ⌊2000 * (1 - (9/10 : ℚ)^50)⌋ ≤ ⌊((2000 : ℤ) : ℚ)⌋ := Int.floor_le_floor h1
      _ = 2000 := Int.floor_intCast 2000
  -- temperature after 50 ticks
  have htemp : |(updateMotor^[50] motor127).temperature - 49| ≤ 3/10 := by
    rw [hsplit, updateMotor_temp _ h49c, ← hsplit]
    have hnn : (0 : ℤ) ≤ (updateMotor^[50] motor127).current := by linarith
    have hcast : (((updateMotor^[50] motor127).current.natAbs : ℚ))
        = (((updateMotor^[50] motor127).current : ℤ) : ℚ) := by
      rw [Int.cast_natAbs]
      exact congrArg (fun z : ℤ => (z : ℚ)) (abs_of_nonneg hnn)
    rw [hcast]
    have hlo : ((1980 : ℚ)) ≤ (((updateMotor^[50] motor127).current : ℤ) : ℚ) := by
      exact_mod_cast hcurlow
    have hhi : (((updateMotor^[50] motor127).current : ℤ) : ℚ) ≤ 2000 := by
      exact_mod_cast hcurhigh
    rw [abs_le]
    constructor <;> linarith
  -- getters at port 1 read motor index 0
  have hga : get_motor_actual_velocity scenario50 1
      = (scenario50.motors ⟨0, by omega⟩).actual_velocity := rfl
  have hgc : get_motor_current scenario50 1
      = (scenario50.motors ⟨0, by omega⟩).current := rfl
  have hgt : get_motor_temperature scenario50 1
      = (scenario50.motors ⟨0, by omega⟩).temperature := rfl
  refine ⟨updateMotor_act m hc, updateMotor_pos m hc, updateMotor_cur m hc,
    updateMotor_temp m hc, ?_, ?_, ?_, ?_⟩
  · rw [hga, scenario50_motor, hact]
  · rw [hgc, scenario50_motor]; exact hcurlow
  · rw [hgc, scenario50_motor]; exact hcurhigh
  · rw [hgt, scenario50_motor]; exact htemp

/-- Witness for C1 at the connected full-voltage motor. -/
theorem hal_update_physics_witness :
    (updateMotor motor127).actual_velocity
      = motor127.actual_velocity * (1 - 1/10)
        + (((motor127.voltage : ℚ) / 127) * maxVelocity motor127.gearset) * (1/10)
    ∧ get_motor_actual_velocity scenario50 1 = 200 * (1 - (9/10 : ℚ)^50) :=
  ⟨(hal_update_physics motor127 rfl).1,
   (hal_update_physics motor127 rfl).2.2.2.2.1⟩

/-! ### C7: monotone geometric convergence of the velocity filter -/

/-- C7. For a connected motor held at constant commanded voltage, the
distance of `actual_velocity` to `voltage/127 * max_velocity(gearset)`
never increases from one tick to the next, and after N ticks it is within
a factor `(1 - 0.1)^N` of the initial distance. -/
theorem velocity_filter_convergence (m : MotorState) (hc : m.connected = true) :
    (∀ n : ℕ, |(updateMotor^[n+1] m).actual_velocity - targetVel m|
        ≤ |(updateMotor^[n] m).actual_velocity - targetVel m|)
  ∧ ∀ N : ℕ, |(updateMotor^[N] m).actual_velocity - targetVel m|
      ≤ (1 - 1/10 : ℚ)^N * |m.actual_velocity - targetVel m| := by
  have key : ∀ n : ℕ, |(updateMotor^[n] m).actual_velocity - targetVel m|
      = (9/10 : ℚ)^n * |m.actual_velocity - targetVel m| := by
    intro n
    rw [(updateMotor_iterate m hc n).2.2.2, add_sub_cancel_left, abs_mul, abs_pow,
      abs_of_nonneg (by norm_num : (0:ℚ) ≤ 9/10)]
  constructor
  · intro n
    rw [key n, key (n+1), pow_succ]
    have h0 : (0:ℚ) ≤ (9/10:ℚ)^n := by positivity
    have habs : (0:ℚ) ≤ |m.actual_velocity - targetVel m| := abs_nonneg _
    nlinarith
  · intro N
    rw [key N]
    norm_num

/-- Witness for C7 at the connected full-voltage motor, ticks 1 and 3. -/
theorem velocity_filter_convergence_witness :
    |(updateMotor^[2] motor127).actual_velocity - targetVel motor127|
      ≤ |(updateMotor^[1] motor127).actual_velocity - targetVel motor127|
    ∧ |(updateMotor^[3] motor127).actual_velocity - targetVel motor127|
      ≤ (1 - 1/10 : ℚ)^3 * |motor127.actual_velocity - targetVel motor127| :=
  ⟨(velocity_filter_convergence motor127 rfl).1 1,
   (velocity_filter_convergence motor127 rfl).2 3⟩

/-! ### C3: the outbound frame envelope -/

/-- C3. Every outbound frame is the byte 0x81, then length bytes chosen by
payload size (one byte when the size is at most 125, the byte 126 plus a
16-bit big-endian length up to 65535, the byte 127 plus a 64-bit
big-endian length above that), then the payload unmodified; the boundary
sizes 125, 126, 65535 and 65536 select the 1-byte, 16-bit, 16-bit and
64-bit encodings respectively. -/
theorem send_frame_envelope (p : List ℕ) :
    sendFrame p = 129 :: (lenBytes p.length ++ p)
  ∧ (p.length ≤ 125 → lenBytes p.length = [p.length])
  ∧ (126 ≤ p.length → p.length ≤ 65535 →
      lenBytes p.length = [126, (p.length >>> 8) % 256, p.length % 256])
  ∧ (65536 ≤ p.length →
      lenBytes p.length = [127, (p.length >>> 56) % 256, (p.length >>> 48) % 256,
        (p.length >>> 40) % 256, (p.length >>> 32) % 256, (p.length >>> 24) % 256,
        (p.length >>> 16) % 256, (p.length >>> 8) % 256, p.length % 256])
  ∧ lenBytes 125 = [125] ∧ lenBytes 126 = [126, 0, 126]
  ∧ lenBytes 65535 = [126, 255, 255]
  ∧ lenBytes 65536 = [127, 0, 0, 0, 0, 0, 1, 0, 0] := by
  refine ⟨rfl, ?_, ?_, ?_, rfl, rfl, rfl, rfl⟩
  · intro h
    simp [lenBytes, h]
  · intro h1 h2
    have h3 : ¬(p.length ≤ 125) := by omega
    simp [lenBytes, h3, h2]
  · intro h
    have h1 : ¬(p.length ≤ 125) := by omega
    have h2 : ¬(p.length ≤ 65535) := by omega
    simp [lenBytes, h1, h2]

/-- Witness for C3: a 126-byte payload uses the 16-bit length encoding. -/
theorem send_frame_envelope_witness :
    lenBytes (List.replicate 126 7).length
      = [126, ((List.replicate 126 7).length >>> 8) % 256,
         (List.replicate 126 7).length % 256] :=
  (send_frame_envelope (List.replicate 126 7)).2.2.1 (by simp) (by simp)

end VexHost

namespace VexHost

/-! ### Lemmas about the display flush path -/

/-- A covered coordinate pair determines its row-major sweep index. -/
theorem cell_of_covered (a : LvArea) (cx cy : ℤ)
    (h1 : a.x1 ≤ cx) (h2 : cx ≤ a.x2) (h3 : a.y1 ≤ cy) (h4 : cy ≤ a.y2) :
    ((cy - a.y1).toNat * areaW a + (cx - a.x1).toNat < areaH a * areaW a) ∧
    cellX a ((cy - a.y1).toNat * areaW a + (cx - a.x1).toNat) = cx ∧
    cellY a ((cy - a.y1).toNat * areaW a + (cx - a.x1).toNat) = cy := by
  have hw : (cx - a.x1).toNat < areaW a := by unfold areaW; omega
  have hh : (cy - a.y1).toNat < areaH a := by unfold areaH; omega
  have hwpos : 0 < areaW a := by omega
  have hlt : (cy - a.y1).toNat * areaW a + (cx - a.x1).toNat
      < areaH a * areaW a := by
    calc (cy - a.y1).toNat * areaW a + (cx - a.x1).toNat
        < (cy - a.y1).toNat * areaW a + areaW a := by omega
      _ = ((cy - a.y1).toNat + 1) * areaW a := by ring
      _ ≤ areaH a * areaW a := Nat.mul_le_mul_right _ (by omega)
  have hmod : ((cy - a.y1).toNat * areaW a + (cx - a.x1).toNat) % areaW a
      = (cx - a.x1).toNat := by
    rw [mul_comm ((cy - a.y1).toNat) (areaW a), Nat.mul_add_mod,
      Nat.mod_eq_of_lt hw]
  have hdiv : ((cy - a.y1).toNat * areaW a + (cx - a.x1).toNat) / areaW a
      = (cy - a.y1).toNat := by
    rw [mul_comm, Nat.mul_add_div hwpos, Nat.div_eq_of_lt hw, Nat.add_zero]
  refine ⟨hlt, ?_, ?_⟩
  · unfold cellX; rw [hmod]; omega
  · unfold cellY; rw [hdiv]; omega

/-- A sweep index below the cell count lands on a covered coordinate pair,
and that pair maps back to the index. -/
theorem covered_of_cell (a : LvArea) (k : ℕ) (hk : k < areaH a * areaW a) :
    a.x1 ≤ cellX a k ∧ cellX a k ≤ a.x2 ∧ a.y1 ≤ cellY a k ∧ cellY a k ≤ a.y2 ∧
    (cellY a k - a.y1).toNat * areaW a + (cellX a k - a.x1).toNat = k := by
  have hwpos : 0 < areaW a := by
    by_contra h
    have h0 : areaW a = 0 := by omega
    rw [h0, Nat.mul_zero] at hk
    omega
  have hhpos : 0 < areaH a := by
    by_contra h
    have h0 : areaH a = 0 := by omega
    rw [h0, Nat.zero_mul] at hk
    omega
  have hmod : k % areaW a < areaW a := Nat.mod_lt _ hwpos
  have hdivlt : k / areaW a < areaH a := by
    rw [Nat.div_lt_iff_lt_mul hwpos]
    exact hk
  have hWa : (areaW a : ℤ) = a.x2 - a.x1 + 1 := by unfold areaW at hwpos ⊢; omega
  have hHa : (areaH a : ℤ) = a.y2 - a.y1 + 1 := by unfold areaH at hhpos ⊢; omega
  have hfin : (k / areaW a) * areaW a + k % areaW a = k := by
    rw [mul_comm]
    exact Nat.div_add_mod k (areaW a)
  unfold cellX cellY
  set dm := k % areaW a
  set dq := k / areaW a
  clear_value dm dq
  have e1 : (a.x1 + (dm : ℤ) - a.x1).toNat = dm := by omega
  have e2 : (a.y1 + (dq : ℤ) - a.y1).toNat = dq := by omega
  refine ⟨by omega, ?_, by omega, ?_, ?_⟩
  · have h5 := hmod
    omega
  · have h5 := hdivlt
    omega
  · rw [e2, e1]
    exact hfin

/-- Pointwise value of the first `N` guarded writes of the flush sweep. -/
theorem flushFB_aux (fb : FB) (a : LvArea) (colors : List ℕ) (cx cy : ℤ)
    (N : ℕ) (hN : N ≤ areaH a * areaW a) :
    (List.range N).foldl
      (fun f k => writeCell f (cellX a k) (cellY a k) (colors.getD k 0)) fb cx cy
    = if (0 ≤ cx ∧ cx < WIDTH ∧ 0 ≤ cy ∧ cy < HEIGHT)
         ∧ (a.x1 ≤ cx ∧ cx ≤ a.x2 ∧ a.y1 ≤ cy ∧ cy ≤ a.y2)
         ∧ (cy - a.y1).toNat * areaW a + (cx - a.x1).toNat < N then
        colors.getD ((cy - a.y1).toNat * areaW a + (cx - a.x1).toNat) 0
      else fb cx cy := by
  induction N with
  | zero => simp
  | succ N ih =>
    have hN' : N ≤ areaH a * areaW a := by omega
    rw [List.range_succ, List.foldl_append, List.foldl_cons, List.foldl_nil]
    set prev : FB := (List.range N).foldl
      (fun f k => writeCell f (cellX a k) (cellY a k) (colors.getD k 0)) fb with hprev
    simp only [writeCell, ite_apply]
    by_cases hin : 0 ≤ cellX a N ∧ cellX a N < WIDTH ∧ 0 ≤ cellY a N ∧ cellY a N < HEIGHT
    · rw [if_pos hin]
      by_cases heq : cx = cellX a N ∧ cy = cellY a N
      · rw [if_pos heq]
        obtain ⟨hx, hy⟩ := heq
        have hcov := covered_of_cell a N (by omega)
        rw [← hx, ← hy] at hcov
        obtain ⟨c1, c2, c3, c4, hidx⟩ := hcov
        have hinxy : 0 ≤ cx ∧ cx < WIDTH ∧ 0 ≤ cy ∧ cy < HEIGHT := by
          rw [hx, hy]; exact hin
        rw [if_pos ⟨hinxy, ⟨c1, c2, c3, c4⟩, by omega⟩, hidx]
      · rw [if_neg heq, ih hN']
        refine if_congr ?_ rfl rfl
        constructor
        · rintro ⟨u, v, w⟩
          exact ⟨u, v, by omega⟩
        · rintro ⟨u, v, w⟩
          refine ⟨u, v, ?_⟩
          rcases Nat.lt_succ_iff_lt_or_eq.mp w with h | h
          · exact h
          · exfalso
            obtain ⟨-, hcx, hcy⟩ := cell_of_covered a cx cy v.1 v.2.1 v.2.2.1 v.2.2.2
            rw [h] at hcx hcy
            exact heq ⟨hcx.symm, hcy.symm⟩
    · rw [if_neg hin, ih hN']
      refine if_congr ?_ rfl rfl
      constructor
      · rintro ⟨u, v, w⟩
        exact ⟨u, v, by omega⟩
      · rintro ⟨u, v, w⟩
        refine ⟨u, v, ?_⟩
        rcases Nat.lt_succ_iff_lt_or_eq.mp w with h | h
        · exact h
        · exfalso
          obtain ⟨-, hcx, hcy⟩ := cell_of_covered a cx cy v.1 v.2.1 v.2.2.1 v.2.2.2
          rw [h] at hcx hcy
          exact hin (by rw [hcx, hcy]; exact u)

/-- Pointwise value of the full flush: an in-canvas covered cell receives
its row-major source pixel, every other cell keeps its old value. -/
theorem flushFB_eval (fb : FB) (a : LvArea) (colors : List ℕ) (cx cy : ℤ) :
    flushFB fb a colors cx cy
    = if (0 ≤ cx ∧ cx < WIDTH ∧ 0 ≤ cy ∧ cy < HEIGHT)
         ∧ (a.x1 ≤ cx ∧ cx ≤ a.x2 ∧ a.y1 ≤ cy ∧ cy ≤ a.y2) then
        colors.getD ((cy - a.y1).toNat * areaW a + (cx - a.x1).toNat) 0
      else fb cx cy := by
  unfold flushFB
  rw [flushFB_aux fb a colors cx cy (areaH a * areaW a) le_rfl]
  refine if_congr ?_ rfl rfl
  constructor
  · rintro ⟨u, v, -⟩
    exact ⟨u, v⟩
  · rintro ⟨u, v⟩
    exact ⟨u, v, (cell_of_covered a cx cy v.1 v.2.1 v.2.2.1 v.2.2.2).1⟩

theorem length_filterMap_of_isSome {α β : Type} (f : α → Option β) (l : List α)
    (h : ∀ x ∈ l, (f x).isSome = true) : (l.filterMap f).length = l.length := by
  induction l with
  | nil => rfl
  | cons x xs ih =>
    rw [List.filterMap_cons]
    have hx := h x (List.mem_cons_self x xs)
    cases hfx : f x with
    | none => rw [hfx] at hx; simp at hx
    | some b =>
        simp [hfx, ih (fun y hy => h y (List.mem_cons_of_mem x hy))]

end VexHost

namespace VexHost

/-! ### C5: clamped flush writes -/

/-- C5. For every flush, only framebuffer cells in the intersection of the
rectangle with the 480 by 272 canvas are written; each in-bounds covered
cell receives its corresponding row-major source pixel; a cell outside the
canvas is never written (the guarded store makes an out-of-array write
impossible), and every cell outside the rectangle keeps its previous
value. -/
theorem flush_clamped_writes (fb : FB) (a : LvArea) (colors : List ℕ)
    (cx cy : ℤ) :
    WIDTH = 480 ∧ HEIGHT = 272
  ∧ (¬(0 ≤ cx ∧ cx < WIDTH ∧ 0 ≤ cy ∧ cy < HEIGHT) →
      flushFB fb a colors cx cy = fb cx cy)
  ∧ ((0 ≤ cx ∧ cx < WIDTH ∧ 0 ≤ cy ∧ cy < HEIGHT) →
      (a.x1 ≤ cx ∧ cx ≤ a.x2 ∧ a.y1 ≤ cy ∧ cy ≤ a.y2 →
        flushFB fb a colors cx cy
          = colors.getD ((cy - a.y1).toNat * areaW a + (cx - a.x1).toNat) 0)
      ∧ (¬(a.x1 ≤ cx ∧ cx ≤ a.x2 ∧ a.y1 ≤ cy ∧ cy ≤ a.y2) →
        flushFB fb a colors cx cy = fb cx cy)) := by
  refine ⟨rfl, rfl, ?_, fun hin => ⟨?_, ?_⟩⟩
  · intro hout
    rw [flushFB_eval]
    exact if_neg (fun h => hout h.1)
  · intro hcov
    rw [flushFB_eval]
    exact if_pos ⟨hin, hcov⟩
  · intro hncov
    rw [flushFB_eval]
    exact if_neg (fun h => hncov h.2)

/-- Witness for C5: a 2 by 1 rectangle straddling the right canvas edge;
the in-canvas covered cell receives its source pixel, the out-of-canvas
cell is dropped, and an uncovered cell keeps its old value. -/
theorem flush_clamped_writes_witness :
    flushFB (fun _ _ => 9) ⟨479, 0, 480, 0⟩ [5, 6] 479 0
      = ([5, 6] : List ℕ).getD
          (((0 : ℤ) - (0 : ℤ)).toNat * areaW ⟨479, 0, 480, 0⟩
            + ((479 : ℤ) - (479 : ℤ)).toNat) 0
    ∧ flushFB (fun _ _ => 9) ⟨479, 0, 480, 0⟩ [5, 6] 100 100 = 9 :=
  ⟨((flush_clamped_writes (fun _ _ => 9) ⟨479, 0, 480, 0⟩ [5, 6] 479 0).2.2.2
      (by decide)).1 (by decide),
   ((flush_clamped_writes (fun _ _ => 9) ⟨479, 0, 480, 0⟩ [5, 6] 100 100).2.2.2
      (by decide)).2 (by decide)⟩

/-! ### C4: the emitted ScreenUpdate record against its invariant -/

/-- Counterexample to C4 as stated: flushing the rectangle
(479, 0) - (480, 0), which extends one pixel past the right canvas edge,
emits a record whose rectangle is out of bounds (x2 = 480) and whose pixel
vector has 1 element instead of (x2 - x1 + 1) * (y2 - y1 + 1) = 2, so the
emitted record violates the ScreenDamageRecord invariant. -/
theorem screen_record_oob_violation :
    ¬ ScreenDamageInv (disp_flush_cb (fun _ _ => 0) ⟨479, 0, 480, 0⟩ [5, 6]).2 := by
  decide

/-- C4 as amended: when the flushed rectangle lies within the 480 by 272
canvas, the emitted ScreenUpdate record satisfies the ScreenDamageRecord
invariant — rectangle within bounds, pixel vector of exactly
(x2 - x1 + 1) * (y2 - y1 + 1) row-major elements, one per covered pixel.
(The unamended claim fails for rectangles extending past a canvas edge:
the record then carries the raw out-of-bounds corners and only the
in-canvas pixels.) -/
theorem screen_record_inbounds_inv (fb : FB) (colors : List ℕ) (a : LvArea)
    (h1 : 0 ≤ a.x1) (h2 : a.x1 ≤ a.x2) (h3 : a.x2 < 480)
    (h4 : 0 ≤ a.y1) (h5 : a.y1 ≤ a.y2) (h6 : a.y2 < 272) :
    ScreenDamageInv (disp_flush_cb fb a colors).2 := by
  unfold ScreenDamageInv disp_flush_cb
  refine ⟨h1, h2, h3, h4, h5, h6, ?_⟩
  unfold collectPixels
  have hall : ∀ k ∈ List.range (areaH a * areaW a),
      ((if 0 ≤ cellX a k ∧ cellX a k < WIDTH ∧ 0 ≤ cellY a k ∧ cellY a k < HEIGHT
        then some (flushFB fb a colors (cellX a k) (cellY a k))
        else none).isSome = true) := by
    intro k hk
    rw [List.mem_range] at hk
    obtain ⟨c1, c2, c3, c4, -⟩ := covered_of_cell a k hk
    rw [if_pos ⟨by omega, by unfold WIDTH; omega, by omega, by unfold HEIGHT; omega⟩]
    rfl
  rw [length_filterMap_of_isSome _ _ hall, List.length_range]
  show areaH a * areaW a = areaW a * areaH a
  exact Nat.mul_comm _ _

/-- Witness for the amended C4 at a concrete in-bounds rectangle. -/
theorem screen_record_inbounds_witness :
    ScreenDamageInv (disp_flush_cb (fun _ _ => 0) ⟨0, 0, 1, 1⟩ [1, 2, 3, 4]).2 :=
  screen_record_inbounds_inv (fun _ _ => 0) [1, 2, 3, 4] ⟨0, 0, 1, 1⟩
    (by decide) (by decide) (by decide) (by decide) (by decide) (by decide)

end VexHost

namespace VexHost

/-! ### Lemmas about the text codec -/

theorem digitToChar_val (d : ℕ) (h : d < 10) : (digitToChar d).toNat = 48 + d := by
  interval_cases d <;> rfl

theorem isDig_digitToChar (d : ℕ) (h : d < 10) : isDig (digitToChar d) = true := by
  interval_cases d <;> rfl

theorem natDecCore_all_dig (fuel : ℕ) :
    ∀ n, ∀ c ∈ natDecCore fuel n, isDig c = true := by
  induction fuel with
  | zero =>
    intro n c hc
    simp [natDecCore] at hc
  | succ f ih =>
    intro n c hc
    unfold natDecCore at hc
    by_cases h : n = 0
    · rw [if_pos h] at hc
      simp at hc
    · rw [if_neg h, List.mem_append] at hc
      rcases hc with h1 | h1
      · exact ih (n / 10) c h1
      · rw [List.mem_singleton] at h1
        rw [h1]
        exact isDig_digitToChar _ (Nat.mod_lt _ (by norm_num))

theorem natDec_all_dig (n : ℕ) : ∀ c ∈ natDec n, isDig c = true := by
  intro c hc
  unfold natDec at hc
  by_cases h : n = 0
  · rw [if_pos h] at hc
    rw [List.mem_singleton] at hc
    rw [hc]
    rfl
  · rw [if_neg h] at hc
    exact natDecCore_all_dig n n c hc

theorem natDec_ne_nil (n : ℕ) : natDec n ≠ [] := by
  unfold natDec
  by_cases h : n = 0
  · rw [if_pos h]
    simp
  · rw [if_neg h]
    cases n with
    | zero => exact absurd rfl h
    | succ m =>
      unfold natDecCore
      rw [if_neg h]
      simp

theorem numChar_natDec (n : ℕ) : ∀ c ∈ natDec n, numChar c = true := by
  intro c hc
  unfold numChar
  rw [natDec_all_dig n c hc]
  simp

theorem numChar_intDec (v : ℤ) : ∀ c ∈ intDec v, numChar c = true := by
  intro c hc
  unfold intDec at hc
  by_cases hv : v < 0
  · rw [if_pos hv, List.mem_cons] at hc
    rcases hc with h | h
    · rw [h]; rfl
    · exact numChar_natDec _ c h
  · rw [if_neg hv] at hc
    exact numChar_natDec _ c hc

theorem digitsToNat_append_digit (l : List Char) (c : Char) :
    digitsToNat (l ++ [c]) = digitsToNat l * 10 + (c.toNat - 48) := by
  unfold digitsToNat
  rw [List.foldl_append, List.foldl_cons, List.foldl_nil]

theorem digitsToNat_natDecCore (fuel : ℕ) :
    ∀ n, n < 10 ^ fuel → digitsToNat (natDecCore fuel n) = n := by
  induction fuel with
  | zero =>
    intro n h
    have h0 : n = 0 := by simpa using h
    rw [h0]
    rfl
  | succ f ih =>
    intro n h
    unfold natDecCore
    by_cases h0 : n = 0
    · rw [if_pos h0, h0]
      rfl
    · rw [if_neg h0, digitsToNat_append_digit]
      have hdivlt : n / 10 < 10 ^ f := by
        rw [pow_succ] at h
        exact (Nat.div_lt_iff_lt_mul (by norm_num)).mpr h
      rw [ih (n / 10) hdivlt]
      rw [digitToChar_val _ (Nat.mod_lt _ (by norm_num))]
      omega

theorem digitsToNat_natDec (n : ℕ) : digitsToNat (natDec n) = n := by
  unfold natDec
  by_cases h : n = 0
  · rw [if_pos h, h]
    rfl
  · rw [if_neg h]
    exact digitsToNat_natDecCore n n (Nat.lt_pow_self (by norm_num) n)

theorem takeWhile_append_all (p : Char → Bool) (l1 l2 : List Char)
    (h1 : ∀ c ∈ l1, p c = true)
    (h2 : ∀ c, l2.head? = some c → p c = false) :
    (l1 ++ l2).takeWhile p = l1 := by
  induction l1 with
  | nil =>
    rw [List.nil_append]
    cases l2 with
    | nil => rfl
    | cons c t =>
      rw [List.takeWhile_cons, h2 c rfl]
      simp
  | cons c t ih =>
    rw [List.cons_append, List.takeWhile_cons, h1 c (List.mem_cons_self c t)]
    simp only [if_true]
    rw [ih (fun x hx => h1 x (List.mem_cons_of_mem c hx))]

theorem head_not_dig_cons (c0 : Char) (h : isDig c0 = false) (l : List Char) :
    ∀ c, ((c0 :: l).head? = some c) → isDig c = false := by
  intro c hc
  rw [List.head?_cons, Option.some.injEq] at hc
  rw [← hc]
  exact h

theorem parseCInt_natDec (n : ℕ) (rest : List Char)
    (hr : ∀ c, rest.head? = some c → isDig c = false) :
    parseCInt (natDec n ++ rest) = some (n : ℤ) := by
  obtain ⟨c, cs, hcons⟩ : ∃ c cs, natDec n = c :: cs := by
    cases h : natDec n with
    | nil => exact absurd h (natDec_ne_nil n)
    | cons c cs => exact ⟨c, cs, rfl⟩
  have hcdig : isDig c = true :=
    natDec_all_dig n c (by rw [hcons]; exact List.mem_cons_self _ _)
  have hnotminus : ¬((natDec n ++ rest).head? = some '-') := by
    rw [hcons, List.cons_append, List.head?_cons]
    intro hsome
    rw [Option.some.injEq] at hsome
    rw [hsome] at hcdig
    exact absurd hcdig (by decide)
  unfold parseCInt
  rw [if_neg hnotminus]
  rw [takeWhile_append_all isDig (natDec n) rest (natDec_all_dig n) hr]
  rw [if_neg (by simp [natDec_ne_nil n])]
  rw [digitsToNat_natDec]

theorem parseCInt_intDec (v : ℤ) (rest : List Char)
    (hr : ∀ c, rest.head? = some c → isDig c = false) :
    parseCInt (intDec v ++ rest) = some v := by
  unfold intDec
  by_cases hv : v < 0
  · rw [if_pos hv, List.cons_append]
    unfold parseCInt
    rw [if_pos (by rw [List.head?_cons])]
    have hdrop : (('-' :: (natDec v.natAbs ++ rest)).drop 1)
        = natDec v.natAbs ++ rest := rfl
    rw [hdrop]
    rw [takeWhile_append_all isDig (natDec v.natAbs) rest
      (natDec_all_dig v.natAbs) hr]
    rw [if_neg (by simp [natDec_ne_nil v.natAbs])]
    rw [digitsToNat_natDec]
    have e : -((v.natAbs : ℤ)) = v := by omega
    rw [e]
  · rw [if_neg hv]
    rw [parseCInt_natDec v.toNat rest hr]
    have e : ((v.toNat : ℤ)) = v := by omega
    rw [e]

theorem leads_self_append (k r : List Char) : leads k (k ++ r) = true := by
  induction k with
  | nil => rfl
  | cons c t ih => simp [leads, ih]

theorem findSub_cons_pos {key : List Char} {c : Char} {cs : List Char}
    (h : leads key (c :: cs) = true) : findSub key (c :: cs) = some 0 := by
  unfold findSub
  rw [if_pos h]

theorem findSub_cons_neg {key : List Char} {c : Char} {cs : List Char}
    (h : leads key (c :: cs) = false) :
    findSub key (c :: cs) = (findSub key cs).map (· + 1) := by
  unfold findSub
  rw [if_neg (by simp [h])]
  congr 1
  cases cs <;> rfl

theorem findSub_self_append (key r : List Char) (h : key ≠ []) :
    findSub key (key ++ r) = some 0 := by
  cases key with
  | nil => exact absurd rfl h
  | cons c t =>
    rw [List.cons_append]
    exact findSub_cons_pos (leads_self_append (c :: t) r)

theorem findSub_append_skip (key l s : List Char)
    (hno : ∀ i, i < l.length → leads key (l.drop i ++ s) = false) :
    findSub key (l ++ s) = (findSub key s).map (· + l.length) := by
  induction l with
  | nil =>
    rw [List.nil_append]
    cases h : findSub key s <;> simp [h]
  | cons c t ih =>
    rw [List.cons_append, findSub_cons_neg (by simpa using hno 0 (by simp))]
    rw [ih (fun i hi => by simpa using hno (i + 1) (by simpa using hi))]
    cases findSub key s <;> simp
    omega

theorem findSub_num_skip (key l s : List Char) (hq : key.head? = some '\"')
    (hl : ∀ c ∈ l, numChar c = true) :
    findSub key (l ++ s) = (findSub key s).map (· + l.length) := by
  apply findSub_append_skip
  intro i hi
  have hne : l.drop i ≠ [] := by
    intro hcontra
    have := List.drop_eq_nil_iff_le.mp hcontra
    omega
  obtain ⟨c, cs, hcons⟩ : ∃ c cs, l.drop i = c :: cs := by
    cases h : l.drop i with
    | nil => exact absurd h hne
    | cons c cs => exact ⟨c, cs, rfl⟩
  have hcnum : numChar c = true := by
    refine hl c ?_
    have : c ∈ l.drop i := by rw [hcons]; exact List.mem_cons_self _ _
    exact List.mem_of_mem_drop this
  obtain ⟨k, ks, hkey⟩ : ∃ k ks, key = k :: ks := by
    cases h : key with
    | nil => rw [h] at hq; simp at hq
    | cons k ks => exact ⟨k, ks, rfl⟩
  have hk : k = '\"' := by
    rw [hkey, List.head?_cons, Option.some.injEq] at hq
    exact hq
  rw [hcons, hkey, hk, List.cons_append]
  have hne2 : ('\"' == c) = false := by
    cases hbe : ('\"' == c) with
    | false => rfl
    | true =>
      have he : '\"' = c := eq_of_beq hbe
      rw [← he] at hcnum
      exact absurd hcnum (by decide)
  simp [leads, hne2]

theorem drop_append_length {α : Type} (l s : List α) (m : ℕ) :
    (l ++ s).drop (l.length + m) = s.drop m := by
  induction l with
  | nil => simp
  | cons c t ih =>
    rw [List.cons_append, List.length_cons]
    rw [show t.length + 1 + m = (t.length + m) + 1 by omega]
    rw [List.drop_succ_cons]
    exact ih

theorem probeIntAt_append_skip (key l s : List Char)
    (hno : ∀ i, i < l.length → leads key (l.drop i ++ s) = false) :
    probeIntAt key (l ++ s) = probeIntAt key s := by
  unfold probeIntAt
  rw [findSub_append_skip key l s hno]
  cases hfs : findSub key s with
  | none => rfl
  | some j =>
    show parseCInt ((l ++ s).drop (j + l.length + key.length)) = _
    rw [show j + l.length + key.length = l.length + (j + key.length) by omega]
    rw [drop_append_length]
    rfl

theorem probeIntAt_num_skip (key l s : List Char) (hq : key.head? = some '\"')
    (hl : ∀ c ∈ l, numChar c = true) :
    probeIntAt key (l ++ s) = probeIntAt key s := by
  unfold probeIntAt
  rw [findSub_num_skip key l s hq hl]
  cases hfs : findSub key s with
  | none => rfl
  | some j =>
    show parseCInt ((l ++ s).drop (j + l.length + key.length)) = _
    rw [show j + l.length + key.length = l.length + (j + key.length) by omega]
    rw [drop_append_length]
    rfl

theorem probeIntAt_self (key s : List Char) (hk : key ≠ []) :
    probeIntAt key (key ++ s) = parseCInt s := by
  unfold probeIntAt
  rw [findSub_self_append key s hk]
  show parseCInt ((key ++ s).drop (0 + key.length)) = parseCInt s
  rw [Nat.zero_add]
  congr 1
  exact List.drop_left key s

end VexHost

namespace VexHost

/-! ### The motor telemetry record and its field probes -/

theorem motorMsg_assoc (port : ℕ) (v vel pos : ℤ) :
    motorMsg port v vel pos
      = motorHead ++ (keyPort ++ (natDec port ++ ([','] ++ (keyVoltage ++
          (intDec v ++ ([','] ++ (keyVelocity ++ (intDec vel ++ ([','] ++
          (keyPosition ++ (intDec pos ++ [braceR]))))))))))) := by
  unfold motorMsg
  simp only [List.append_assoc]

theorem probe_port_motorMsg (port : ℕ) (v vel pos : ℤ) :
    probeIntAt keyPort (motorMsg port v vel pos) = some (port : ℤ) := by
  rw [motorMsg_assoc]
  rw [probeIntAt_append_skip keyPort motorHead _
    (by intro i hi; simp [motorHead] at hi; interval_cases i <;> rfl)]
  rw [probeIntAt_self keyPort _ (by decide)]
  exact parseCInt_natDec port _ (head_not_dig_cons ',' rfl _)

theorem probe_voltage_motorMsg (port : ℕ) (v vel pos : ℤ) :
    probeIntAt keyVoltage (motorMsg port v vel pos) = some v := by
  rw [motorMsg_assoc]
  rw [probeIntAt_append_skip keyVoltage motorHead _
    (by intro i hi; simp [motorHead] at hi; interval_cases i <;> rfl)]
  rw [probeIntAt_append_skip keyVoltage keyPort _
    (by intro i hi; simp [keyPort] at hi; interval_cases i <;> rfl)]
  rw [probeIntAt_num_skip keyVoltage (natDec port) _ rfl (numChar_natDec port)]
  rw [probeIntAt_append_skip keyVoltage [','] _
    (by intro i hi; simp at hi; subst hi; rfl)]
  rw [probeIntAt_self keyVoltage _ (by decide)]
  exact parseCInt_intDec v _ (head_not_dig_cons ',' rfl _)

theorem probe_velocity_motorMsg (port : ℕ) (v vel pos : ℤ) :
    probeIntAt keyVelocity (motorMsg port v vel pos) = some vel := by
  rw [motorMsg_assoc]
  rw [probeIntAt_append_skip keyVelocity motorHead _
    (by intro i hi; simp [motorHead] at hi; interval_cases i <;> rfl)]
  rw [probeIntAt_append_skip keyVelocity keyPort _
    (by intro i hi; simp [keyPort] at hi; interval_cases i <;> rfl)]
  rw [probeIntAt_num_skip keyVelocity (natDec port) _ rfl (numChar_natDec port)]
  rw [probeIntAt_append_skip keyVelocity [','] _
    (by intro i hi; simp at hi; subst hi; rfl)]
  rw [probeIntAt_append_skip keyVelocity keyVoltage _
    (by intro i hi; simp [keyVoltage] at hi; interval_cases i <;> rfl)]
  rw [probeIntAt_num_skip keyVelocity (intDec v) _ rfl (numChar_intDec v)]
  rw [probeIntAt_append_skip keyVelocity [','] _
    (by intro i hi; simp at hi; subst hi; rfl)]
  rw [probeIntAt_self keyVelocity _ (by decide)]
  exact parseCInt_intDec vel _ (head_not_dig_cons ',' rfl _)

theorem probe_position_motorMsg (port : ℕ) (v vel pos : ℤ) :
    probeIntAt keyPosition (motorMsg port v vel pos) = some pos := by
  rw [motorMsg_assoc]
  rw [probeIntAt_append_skip keyPosition motorHead _
    (by intro i hi; simp [motorHead] at hi; interval_cases i <;> rfl)]
  rw [probeIntAt_append_skip keyPosition keyPort _
    (by intro i hi; simp [keyPort] at hi; interval_cases i <;> rfl)]
  rw [probeIntAt_num_skip keyPosition (natDec port) _ rfl (numChar_natDec port)]
  rw [probeIntAt_append_skip keyPosition [','] _
    (by intro i hi; simp at hi; subst hi; rfl)]
  rw [probeIntAt_append_skip keyPosition keyVoltage _
    (by intro i hi; simp [keyVoltage] at hi; interval_cases i <;> rfl)]
  rw [probeIntAt_num_skip keyPosition (intDec v) _ rfl (numChar_intDec v)]
  rw [probeIntAt_append_skip keyPosition [','] _
    (by intro i hi; simp at hi; subst hi; rfl)]
  rw [probeIntAt_append_skip keyPosition keyVelocity _
    (by intro i hi; simp [keyVelocity] at hi; interval_cases i <;> rfl)]
  rw [probeIntAt_num_skip keyPosition (intDec vel) _ rfl (numChar_intDec vel)]
  rw [probeIntAt_append_skip keyPosition [','] _
    (by intro i hi; simp at hi; subst hi; rfl)]
  rw [probeIntAt_self keyPosition _ (by decide)]
  exact parseCInt_intDec pos _ (head_not_dig_cons braceR rfl _)

/-! ### C8: the motor telemetry round trip -/

/-- Counterexample to C8 as stated: `parse_message` recognizes only the
touch, controller, mode and select_auto inbound kinds, so feeding it the
encoded motor record for port 1, voltage 2, velocity 3, position 4
dispatches nothing at all — it does not recover any of the four fields. -/
theorem parse_message_ignores_motor :
    parse_message (motorMsg 1 2 3 4) = none := by
  decide

/-- C8 as amended: decoding an encoded motor telemetry record with field
probes of the exact style `parse_message` uses (locate the literal key,
read the number after it with the `std::stoi` reader) recovers the same
port, voltage, velocity and position, for ports in the `uint8_t` range and
velocity/position values the text format represents exactly (integral
doubles below one million in magnitude, within the default six
significant digits of `operator<<`). -/
theorem motor_roundtrip_probe (port : ℕ) (hport : port < 256) (v vel pos : ℤ)
    (hvel : vel.natAbs < 1000000) (hpos : pos.natAbs < 1000000) :
    decodeMotor (motorMsg port v vel pos) = some ((port : ℤ), v, vel, pos) := by
  unfold decodeMotor
  rw [probe_port_motorMsg, probe_voltage_motorMsg, probe_velocity_motorMsg,
    probe_position_motorMsg]

/-- Witness for the amended C8 at port 1, voltage -2, velocity 3,
position 4. -/
theorem motor_roundtrip_probe_witness :
    decodeMotor (motorMsg 1 (-2) 3 4) = some ((1 : ℤ), -2, 3, 4) :=
  motor_roundtrip_probe 1 (by norm_num) (-2) 3 4 (by norm_num) (by norm_num)

end VexHost
